import Mathlib

/-!
Verification of the AST layer (`src/ast.hpp`) of the compiler.

The embedding models C++ `std::string` values as byte sequences
(`List Nat`), mirroring `unsigned char` semantics of the source.
Asserting constructors and other fallible operations return `Option`.
The mutable node graph built over `std::shared_ptr` is modelled as a
heap: a function from node identity to a node record, with the
composition operations (`add_child`, `merge_children`, `lift_children`)
written as explicit state transformers following the source line by line.
-/

namespace exp

/-- Bytes of an ASCII string literal, modelling a C++ `std::string` value. -/
def bytes (s : String) : List Nat := s.data.map Char.toNat

/-- `std::tolower` in the default locale on a byte: maps 65..90 to 97..122. -/
def tolower (c : Nat) : Nat := if 65 ≤ c ∧ c ≤ 90 then c + 32 else c

/-- A byte is an uppercase ASCII letter. -/
def isupper (c : Nat) : Bool := if 65 ≤ c ∧ c ≤ 90 then true else false

/-! ## The C++ class hierarchy of `ast.hpp` -/

/-- The classes declared in `ast.hpp` (abstract bases included). -/
inductive CppClass where
  | AbstractNode
  | DummyNode
  | ExprNode
  | LeftValueExprNode
  | StmtNode
  | IdentifierNode
  | TypeNode
  | SimpleTypeNode
  | StringTypeNode
  | ConstValueNode
  | StringNode
  | FuncExprNode
  | SysRoutineNode
  | SysCallNode
  | ArgListNode
  | RoutineCallNode
  | RoutineNode
  | ProgramNode
  | CompoundStmtNode
  | ProcStmtNode
  | StmtList
  deriving DecidableEq, Repr

/-- The direct base class of each class, transcribed from the declarations. -/
def directBase : CppClass → Option CppClass
  | .AbstractNode => none
  | .DummyNode => some .AbstractNode
  | .ExprNode => some .DummyNode
  | .LeftValueExprNode => some .ExprNode
  | .StmtNode => some .DummyNode
  | .IdentifierNode => some .LeftValueExprNode
  | .TypeNode => some .DummyNode
  | .SimpleTypeNode => some .TypeNode
  | .StringTypeNode => some .TypeNode
  | .ConstValueNode => some .ExprNode
  | .StringNode => some .ConstValueNode
  | .FuncExprNode => some .ExprNode
  | .SysRoutineNode => some .DummyNode
  | .SysCallNode => some .DummyNode
  | .ArgListNode => some .DummyNode
  | .RoutineCallNode => some .DummyNode
  | .RoutineNode => some .DummyNode
  | .ProgramNode => some .RoutineNode
  | .CompoundStmtNode => some .StmtNode
  | .ProcStmtNode => some .StmtNode
  | .StmtList => some .StmtNode

/-- Walk up the (single-inheritance) base chain; fuel bounds the depth. -/
def derivesFromAux : Nat → CppClass → CppClass → Bool
  | 0, _, _ => false
  | fuel + 1, c, t =>
      c == t ||
        match directBase c with
        | none => false
        | some b => derivesFromAux fuel b t

/-- `derivesFrom c t` holds when `c` equals `t` or inherits from it
(the hierarchy has depth at most 5, so fuel 21 is ample). -/
def derivesFrom (c t : CppClass) : Bool := derivesFromAux 21 c t

/-- Models `is_a_ptr_of<NodeType>(ptr)`: the `dynamic_cast` succeeds exactly
when the dynamic class of the pointee derives from the target class. -/
def is_a_ptr_of (target dyn : CppClass) : Bool := derivesFrom dyn target

/-- A node pointer for casting purposes: its dynamic class and its identity. -/
abbrev NodePtr := CppClass × Nat

/-- Models `cast_node<TNode>`: returns the same pointer when the dynamic
class derives from the target, otherwise the `assert` fires (failure). -/
def cast_node (target : CppClass) (n : NodePtr) : Option NodePtr :=
  if is_a_ptr_of target n.1 then some n else none

/-! ## System routines -/

/-- The underlying integer value of `SysRoutine::WRITELN`. -/
def WRITELN : Int := 0

/-- The per-call `routine_to_string` map of `to_string(SysRoutine)`. -/
def routine_to_string : List (Int × List Nat) := [(WRITELN, bytes "writeln")]

/-- `std::map::operator[]`: the mapped value, or a value-initialized
(empty) string when the key is absent. -/
def mapBracket (m : List (Int × List Nat)) (k : Int) : List Nat :=
  match m.find? (fun e => e.1 == k) with
  | some e => e.2
  | none => []

/-- Models `to_string(SysRoutine routine)` over the enum's underlying value. -/
def to_string (routine : Int) : List Nat := mapBracket routine_to_string routine

/-! ## Type descriptors -/

/-- The `Type` enumeration. -/
inductive TypeTag where
  | UNDEFINED
  | STRING
  deriving DecidableEq, Repr

/-- A `SimpleTypeNode` wrapping a tag. -/
structure SimpleTypeNode where
  type : TypeTag
  deriving DecidableEq, Repr

/-! ## String constants -/

/-- The scalar state of a `StringNode`: decoded value and its type field. -/
structure StringNodeRec where
  val : List Nat
  type : Option SimpleTypeNode
  deriving DecidableEq, Repr

/-- `std::string::erase(begin())`: undefined on an empty string. -/
def eraseFront : List Nat → Option (List Nat)
  | [] => none
  | _ :: t => some t

/-- `std::string::pop_back()`: undefined on an empty string. -/
def pop_back (l : List Nat) : Option (List Nat) :=
  if l.isEmpty then none else some l.dropLast

/-- The `StringNode` constructor: copies the raw token, erases its first
character, pops its last character, then sets the type to `STRING`. -/
def mkStringNode (raw : List Nat) : Option StringNodeRec := do
  let v1 ← eraseFront raw
  let v2 ← pop_back v1
  pure { val := v2, type := some { type := TypeTag.STRING } }

/-- `StringNode::json_head` on the stored value. -/
def StringNode.json_head (val : List Nat) : List Nat :=
  bytes "\"type\": \"String\", \"value\": \"" ++ val ++ bytes "\""

/-! ## Identifiers -/

/-- The scalar state of an `IdentifierNode`. -/
structure IdentifierNodeRec where
  name : List Nat
  deriving DecidableEq, Repr

/-- The `IdentifierNode` constructor: stores the input lowered bytewise. -/
def mkIdentifierNode (c : List Nat) : IdentifierNodeRec :=
  { name := c.map tolower }

/-- `IdentifierNode::json_head` on the stored name. -/
def IdentifierNode.json_head (name : List Nat) : List Nat :=
  bytes "\"type\": \"Identifier\", \"name\": \"" ++ name ++ bytes "\""

/-- Modelled from the spec: the escaping "required by the textual format
itself" for a JSON string value — a double quote (34) or backslash (92)
must be preceded by a backslash. Used only to compare the source's
rendering against the spec's escaping requirement. -/
def jsonEscape : List Nat → List Nat
  | [] => []
  | c :: cs =>
      if c == 34 || c == 92 then 92 :: c :: jsonEscape cs
      else c :: jsonEscape cs

/-! ## Call wrappers and routine calls -/

/-- A `FuncExprNode` wrapping its call node. -/
structure FuncExprRec where
  func_call : NodePtr
  deriving DecidableEq

/-- The `FuncExprNode` constructor: asserts the wrapped node is a
`RoutineCallNode` or a `SysCallNode`. -/
def mkFuncExprNode (func_call : NodePtr) : Option FuncExprRec :=
  if is_a_ptr_of .RoutineCallNode func_call.1 || is_a_ptr_of .SysCallNode func_call.1 then
    some { func_call := func_call }
  else none

/-- A `ProcStmtNode` wrapping its call node. -/
structure ProcStmtRec where
  proc_call : NodePtr
  deriving DecidableEq

/-- The `ProcStmtNode` constructor: asserts the wrapped node is a
`RoutineCallNode` or a `SysCallNode`. -/
def mkProcStmtNode (proc_call : NodePtr) : Option ProcStmtRec :=
  if is_a_ptr_of .RoutineCallNode proc_call.1 || is_a_ptr_of .SysCallNode proc_call.1 then
    some { proc_call := proc_call }
  else none

/-- A `RoutineCallNode` with its checked members. -/
structure RoutineCallRec where
  identifier : NodePtr
  args : NodePtr
  deriving DecidableEq

/-- The `RoutineCallNode` constructor: both members go through `cast_node`,
whose assertion fails construction on a wrong dynamic class. -/
def mkRoutineCallNode (identifier args : NodePtr) : Option RoutineCallRec := do
  let i ← cast_node .IdentifierNode identifier
  let a ← cast_node .ArgListNode args
  pure { identifier := i, args := a }

/-! ## The tree-composition model of `AbstractNode` -/

/-- The mutable state of an `AbstractNode`: whether its kind declares
itself composite, its `_children` list and its `_parent` back-reference
(node identities stand for `shared_ptr`/`weak_ptr` targets). -/
structure Node where
  should_have_children : Bool
  _children : List Nat
  _parent : Option Nat
  deriving DecidableEq, Repr

/-- The node graph: node identity to node state. -/
def Heap := Nat → Node

/-- Point update of the heap. -/
def updateH (h : Heap) (i : Nat) (n : Node) : Heap :=
  fun j => if j = i then n else h j

/-- `AbstractNode::children()`: asserts `should_have_children()` before
exposing `_children`; on a leaf kind the assertion is a failure. -/
def children (h : Heap) (n : Nat) : Option (List Nat) :=
  if (h n).should_have_children then some (h n)._children else none

/-- `AbstractNode::add_child`: pushes the child onto `this->_children`,
then sets the child's parent back-reference to `this`. No check is made. -/
def add_child (h : Heap) (p c : Nat) : Heap :=
  let h1 := updateH h p { h p with _children := (h p)._children ++ [c] }
  updateH h1 c { h1 c with _parent := some p }

/-- `AbstractNode::merge_children`: `add_child` on each element in order. -/
def merge_children (h : Heap) (p : Nat) (cs : List Nat) : Heap :=
  cs.foldl (fun acc c => add_child acc p c) h

/-- `AbstractNode::lift_children`: `merge_children(node->children())` —
the donor's `children()` accessor may fail its assertion; the donor's
list itself is only read, never cleared. -/
def lift_children (h : Heap) (p d : Nat) : Option Heap :=
  (children h d).map (fun cs => merge_children h p cs)

/-- A node state for concrete test heaps. -/
def testNode (b : Bool) (cs : List Nat) : Node :=
  { should_have_children := b, _children := cs, _parent := none }

/-- Concrete heap: node 1 is a composite donor holding children 2 and 3;
every other node is an empty composite. -/
def hLift : Heap := fun i => if i = 1 then testNode true [2, 3] else testNode true []

/-- Concrete heap: node 0 is a leaf kind; every other node is composite. -/
def hLeaf : Heap := fun i => if i = 0 then testNode false [] else testNode true []

/-- Concrete heap: every node is an empty composite. -/
def hComp : Heap := fun _ => testNode true []

/-! ## Helper lemmas on the composition operations -/

theorem add_child_eval (h : Heap) (p c q : Nat) :
    (add_child h p c) q =
      if q = c then
        { should_have_children := (h c).should_have_children,
          _children := if c = p then (h p)._children ++ [c] else (h c)._children,
          _parent := some p }
      else if q = p then
        { h p with _children := (h p)._children ++ [c] }
      else h q := by
  by_cases hqc : q = c <;> by_cases hcp : c = p <;>
    simp_all [add_child, updateH]

theorem add_child_children_self (h : Heap) (p c : Nat) :
    ((add_child h p c) p)._children = (h p)._children ++ [c] := by
  rw [add_child_eval]
  by_cases hpc : p = c
  · subst hpc; simp
  · simp [hpc]

theorem add_child_children_other (h : Heap) (p c q : Nat) (hq : q ≠ p) :
    ((add_child h p c) q)._children = (h q)._children := by
  rw [add_child_eval]
  by_cases hqc : q = c
  · subst hqc
    simp [hq]
  · simp [hqc, hq]

theorem add_child_shc (h : Heap) (p c q : Nat) :
    ((add_child h p c) q).should_have_children = (h q).should_have_children := by
  rw [add_child_eval]
  by_cases hqc : q = c <;> by_cases hqp : q = p <;> simp_all

theorem add_child_parent_set (h : Heap) (p c : Nat) :
    ((add_child h p c) c)._parent = some p := by
  rw [add_child_eval]
  simp

theorem add_child_parent_pres (h : Heap) (p c q : Nat)
    (hq : (h q)._parent = some p) :
    ((add_child h p c) q)._parent = some p := by
  rw [add_child_eval]
  by_cases hqc : q = c <;> by_cases hqp : q = p <;> simp_all

theorem merge_children_children_self (cs : List Nat) (h : Heap) (p : Nat) :
    ((merge_children h p cs) p)._children = (h p)._children ++ cs := by
  induction cs generalizing h with
  | nil => simp [merge_children]
  | cons a t ih =>
      show ((merge_children (add_child h p a) p t) p)._children = _
      rw [ih, add_child_children_self, List.append_assoc]
      rfl

theorem merge_children_children_other (cs : List Nat) (h : Heap) (p q : Nat)
    (hq : q ≠ p) :
    ((merge_children h p cs) q)._children = (h q)._children := by
  induction cs generalizing h with
  | nil => rfl
  | cons a t ih =>
      show ((merge_children (add_child h p a) p t) q)._children = _
      rw [ih, add_child_children_other h p a q hq]

theorem merge_children_parent_pres (cs : List Nat) (h : Heap) (p q : Nat)
    (hq : (h q)._parent = some p) :
    ((merge_children h p cs) q)._parent = some p := by
  induction cs generalizing h with
  | nil => exact hq
  | cons a t ih =>
      exact ih (add_child h p a) (add_child_parent_pres h p a q hq)

theorem merge_children_parent_mem (cs : List Nat) (h : Heap) (p c : Nat)
    (hc : c ∈ cs) :
    ((merge_children h p cs) c)._parent = some p := by
  induction cs generalizing h with
  | nil => cases hc
  | cons a t ih =>
      rcases List.mem_cons.mp hc with rfl | hmem
      · by_cases hct : c ∈ t
        · exact ih (add_child h p c) hct
        · exact merge_children_parent_pres t (add_child h p c) p c
            (add_child_parent_set h p c)
      · exact ih (add_child h p a) hmem

/-! ## Lemmas about byte-level case folding and JSON escaping -/

/-- The byte relation "differ only in letter case" (or are equal). -/
def caseVariantB (x y : Nat) : Bool :=
  x == y || (isupper x && y == x + 32) || (isupper y && x == y + 32)

/-- Two byte strings differ only in letter case, position by position. -/
def caseEquiv : List Nat → List Nat → Bool
  | [], [] => true
  | x :: xs, y :: ys => caseVariantB x y && caseEquiv xs ys
  | _, _ => false

theorem isupper_iff (c : Nat) : isupper c = true ↔ (65 ≤ c ∧ c ≤ 90) := by
  unfold isupper
  split <;> simp_all

theorem isupper_tolower (c : Nat) : isupper (tolower c) = false := by
  unfold tolower isupper
  split <;> first
    | rfl
    | (split <;> first | rfl | (exfalso; omega))

theorem tolower_eq_of_caseVariantB (x y : Nat) (h : caseVariantB x y = true) :
    tolower x = tolower y := by
  unfold caseVariantB at h
  simp only [Bool.or_eq_true, Bool.and_eq_true, beq_iff_eq] at h
  rcases h with (rfl | ⟨hux, rfl⟩) | ⟨huy, rfl⟩
  · rfl
  · have hx := (isupper_iff x).mp hux
    unfold tolower
    rw [if_pos hx, if_neg (by omega)]
  · have hy := (isupper_iff y).mp huy
    unfold tolower
    rw [if_pos hy, if_neg (by omega)]

theorem jsonEscape_length (v : List Nat) : v.length ≤ (jsonEscape v).length := by
  induction v with
  | nil => simp [jsonEscape]
  | cons c cs ih =>
      unfold jsonEscape
      split <;> simp only [List.length_cons] <;> omega

theorem jsonEscape_eq_self_iff (v : List Nat) :
    jsonEscape v = v ↔ (34 ∉ v ∧ 92 ∉ v) := by
  induction v with
  | nil => simp [jsonEscape]
  | cons c cs ih =>
      by_cases hc : (c == 34 || c == 92) = true
      · have hc' : c = 34 ∨ c = 92 := by simpa using hc
        constructor
        · intro heq
          exfalso
          unfold jsonEscape at heq
          rw [if_pos hc] at heq
          injection heq with h1 h2
          rcases hc' with rfl | rfl
          · omega
          · have hlen := congrArg List.length h2
            simp only [List.length_cons] at hlen
            have := jsonEscape_length cs
            omega
        · rintro ⟨h34, h92⟩
          exfalso
          rcases hc' with rfl | rfl
          · exact h34 (List.mem_cons_self _ _)
          · exact h92 (List.mem_cons_self _ _)
      · have hc1 : c ≠ 34 := by intro e; subst e; simp at hc
        have hc2 : c ≠ 92 := by intro e; subst e; simp at hc
        unfold jsonEscape
        rw [if_neg hc]
        simp [ih, List.mem_cons, Ne.symm hc1, Ne.symm hc2]

theorem head_escape_iff (pre v : List Nat) :
    pre ++ v ++ bytes "\"" = pre ++ jsonEscape v ++ bytes "\""
      ↔ (34 ∉ v ∧ 92 ∉ v) := by
  rw [← jsonEscape_eq_self_iff]
  constructor
  · intro heq
    exact (List.append_cancel_left (List.append_cancel_right heq)).symm
  · intro he
    rw [he]

theorem mkFuncExprNode_isSome (k : CppClass) (id : Nat) :
    (mkFuncExprNode (k, id)).isSome
      = (is_a_ptr_of .RoutineCallNode k || is_a_ptr_of .SysCallNode k) := by
  unfold mkFuncExprNode
  split <;> simp_all

theorem mkProcStmtNode_isSome (k : CppClass) (id : Nat) :
    (mkProcStmtNode (k, id)).isSome
      = (is_a_ptr_of .RoutineCallNode k || is_a_ptr_of .SysCallNode k) := by
  unfold mkProcStmtNode
  split <;> simp_all

theorem derivesFrom_IdentifierNode_eq (x : CppClass) :
    derivesFrom x .IdentifierNode = (x == .IdentifierNode) := by
  cases x <;> decide

theorem derivesFrom_ArgListNode_eq (x : CppClass) :
    derivesFrom x .ArgListNode = (x == .ArgListNode) := by
  cases x <;> decide

/-! ## Claim theorems -/

/-- C1 (counterexample): the claim that after `lift_children(p, d)` the
donor's child sequence is empty is false — on a heap where donor 1 holds
children 2 and 3, after `lift_children(0, 1)` the donor still holds
exactly 2 and 3. -/
theorem lift_children_donor_not_emptied :
    ((lift_children hLift 0 1).map (fun h2 => (h2 1)._children)) = some [2, 3]
    ∧ ((lift_children hLift 0 1).map (fun h2 => (h2 1)._children)) ≠ some [] := by
  decide

/-- C1 (amended): for a composite parent `p` and a distinct composite donor
`d`, `lift_children(p, d)` appends `d`'s entire current child sequence to
`p`'s child sequence in order at the end, but `d`'s child sequence is left
unchanged — the children are shared by both sequences, not transferred. -/
theorem lift_children_appends_keeps_donor (h : Heap) (p d : Nat)
    (hpd : p ≠ d) (_hp : (h p).should_have_children = true)
    (hd : (h d).should_have_children = true) :
    (lift_children h p d).map (fun h2 => ((h2 p)._children, (h2 d)._children))
      = some ((h p)._children ++ (h d)._children, (h d)._children) := by
  unfold lift_children children
  rw [if_pos hd]
  show some (((merge_children h p ((h d)._children)) p)._children,
             ((merge_children h p ((h d)._children)) d)._children)
      = some ((h p)._children ++ (h d)._children, (h d)._children)
  rw [merge_children_children_self, merge_children_children_other _ _ _ _ (Ne.symm hpd)]

/-- C1 (witness): the amended lift theorem applied on the concrete heap. -/
theorem lift_children_appends_keeps_donor_witness :
    (lift_children hLift 0 1).map (fun h2 => ((h2 0)._children, (h2 1)._children))
      = some ([2, 3], [2, 3]) :=
  (lift_children_appends_keeps_donor hLift 0 1 (by decide) (by decide) (by decide)).trans
    (by decide)

/-- C2 (counterexample): the claim that attaching a child to a leaf-kind
node fails loudly is false — node 0 is a leaf kind, yet `add_child` on it
silently succeeds, mutating its child list and the child's back-reference. -/
theorem add_child_leaf_silent_success :
    (hLeaf 0).should_have_children = false
    ∧ ((add_child hLeaf 0 1) 0)._children = [1]
    ∧ ((add_child hLeaf 0 1) 1)._parent = some 0 := by
  decide

/-- C2 (amended): `add_child` appends the child and sets its parent
back-reference unconditionally, with no compositeness check — attaching to
a leaf-kind node silently succeeds; the programming-error failure occurs
only when the leaf's children are subsequently read through `children()`. -/
theorem add_child_unchecked (h : Heap) (p c : Nat)
    (hleaf : (h p).should_have_children = false) :
    ((add_child h p c) p)._children = (h p)._children ++ [c]
    ∧ ((add_child h p c) c)._parent = some p
    ∧ children (add_child h p c) p = none := by
  refine ⟨add_child_children_self h p c, add_child_parent_set h p c, ?_⟩
  unfold children
  rw [add_child_shc, hleaf]
  simp

/-- C2 (witness): the amended attach theorem applied on the concrete heap. -/
theorem add_child_unchecked_witness :
    ((add_child hLeaf 0 1) 0)._children = [1]
    ∧ children (add_child hLeaf 0 1) 0 = none := by
  have h := add_child_unchecked hLeaf 0 1 (by decide)
  exact ⟨h.1.trans (by decide), h.2.2⟩

/-- C3: a function-call expression wrapper or procedure-call statement
wrapper can be constructed around a node exactly when the node's dynamic
class is `RoutineCallNode` (user routine call) or `SysCallNode`
(system-routine call); for any other dynamic class the constructor's
assertion fails. -/
theorem call_wrapper_ctor_iff (k : CppClass) (id : Nat) :
    ((mkFuncExprNode (k, id)).isSome
      ↔ (k = CppClass.RoutineCallNode ∨ k = CppClass.SysCallNode))
    ∧ ((mkProcStmtNode (k, id)).isSome
      ↔ (k = CppClass.RoutineCallNode ∨ k = CppClass.SysCallNode)) := by
  constructor
  · rw [mkFuncExprNode_isSome]
    cases k <;> decide
  · rw [mkProcStmtNode_isSome]
    cases k <;> decide

/-- C4 (code bug): `to_string` maps `WRITELN` to `"writeln"`, but looking
up an enumerator absent from the map is not a loud programming-error
failure — `std::map::operator[]` silently yields a default-constructed
empty string (the source even carries a `TODO: bound checking` comment). -/
theorem to_string_unmapped_silent_default :
    to_string WRITELN = bytes "writeln" ∧ to_string 1 = [] := by
  decide

/-- C5 (counterexample): the claim that string contents containing a double
quote are escaped in the head fragment is false — the string constant
decoded from the raw token `"a"b"` renders with its inner quote verbatim,
not in the escaped form the textual format requires. -/
theorem json_head_escaping_cex :
    ((mkStringNode (bytes "\"a\"b\"")).map (fun n => StringNode.json_head n.val))
      = some (bytes "\"type\": \"String\", \"value\": \"a\"b\"")
    ∧ ((mkStringNode (bytes "\"a\"b\"")).map (fun n => StringNode.json_head n.val))
      ≠ some (bytes "\"type\": \"String\", \"value\": \""
              ++ jsonEscape (bytes "a\"b") ++ bytes "\"") := by
  decide

/-- C5 (amended): string-valued scalar fields are inserted into the head
fragment verbatim with no escaping at all; the fragment coincides with the
properly escaped form exactly when the contents contain neither a double
quote (34) nor a backslash (92), and is malformed otherwise. -/
theorem json_head_verbatim_iff (v nm : List Nat) :
    (StringNode.json_head v
        = bytes "\"type\": \"String\", \"value\": \"" ++ jsonEscape v ++ bytes "\""
      ↔ (34 ∉ v ∧ 92 ∉ v))
    ∧ (IdentifierNode.json_head nm
        = bytes "\"type\": \"Identifier\", \"name\": \"" ++ jsonEscape nm ++ bytes "\""
      ↔ (34 ∉ nm ∧ 92 ∉ nm)) :=
  ⟨head_escape_iff (bytes "\"type\": \"String\", \"value\": \"") v,
   head_escape_iff (bytes "\"type\": \"Identifier\", \"name\": \"") nm⟩

/-- C6: decoding the 7-character raw token `"hello"` stores `hello`, and
decoding the 2-character raw token `""` stores the empty string. -/
theorem string_literal_decoding :
    (mkStringNode (bytes "\"hello\"")).map (fun n => n.val) = some (bytes "hello")
    ∧ (mkStringNode (bytes "\"\"")).map (fun n => n.val) = some [] := by
  decide

/-- C7: an identifier's stored name is the bytewise all-lowercase form of
its input — it contains no uppercase letter and is a fixed point of the
construction — and two identifiers built from inputs differing only in
letter case have equal names. -/
theorem identifier_case_normalization (s t : List Nat) (h : caseEquiv s t = true) :
    (mkIdentifierNode s).name = s.map tolower
    ∧ (∀ c ∈ (mkIdentifierNode s).name, isupper c = false)
    ∧ (mkIdentifierNode ((mkIdentifierNode s).name)).name = (mkIdentifierNode s).name
    ∧ (mkIdentifierNode s).name = (mkIdentifierNode t).name := by
  refine ⟨rfl, ?_, ?_, ?_⟩
  · intro c hc
    simp only [mkIdentifierNode, List.mem_map] at hc
    obtain ⟨a, _, rfl⟩ := hc
    exact isupper_tolower a
  · show (s.map tolower).map tolower = s.map tolower
    rw [List.map_map]
    refine List.map_congr_left ?_
    intro a _
    show tolower (tolower a) = tolower a
    unfold tolower
    split <;> first
      | rfl
      | (split <;> first | rfl | (exfalso; omega))
  · show s.map tolower = t.map tolower
    induction s generalizing t with
    | nil =>
        cases t with
        | nil => rfl
        | cons y ys => simp [caseEquiv] at h
    | cons x xs ih =>
        cases t with
        | nil => simp [caseEquiv] at h
        | cons y ys =>
            simp only [caseEquiv, Bool.and_eq_true] at h
            simp only [List.map_cons]
            rw [tolower_eq_of_caseVariantB x y h.1, ih ys h.2]

/-- C7 (witness): the case-normalization theorem applied to the concrete
inputs `AbC` and `aBc`. -/
theorem identifier_case_normalization_witness :
    caseEquiv (bytes "AbC") (bytes "aBc") = true
    ∧ (mkIdentifierNode (bytes "AbC")).name = (mkIdentifierNode (bytes "aBc")).name :=
  ⟨by decide,
   (identifier_case_normalization (bytes "AbC") (bytes "aBc") (by decide)).2.2.2⟩

/-- C8: `merge_children(p, C)` is by definition the repeated `add_child`
of each element of `C` in order; afterwards `p`'s child sequence ends with
exactly the elements of `C` in the same order, and every attached child's
parent back-reference is set to `p`. -/
theorem merge_children_order_and_backrefs (h : Heap) (p : Nat) (cs : List Nat)
    (_hp : (h p).should_have_children = true) :
    merge_children h p cs = cs.foldl (fun acc c => add_child acc p c) h
    ∧ ((merge_children h p cs) p)._children = (h p)._children ++ cs
    ∧ ∀ c ∈ cs, ((merge_children h p cs) c)._parent = some p :=
  ⟨rfl, merge_children_children_self cs h p,
   fun c hc => merge_children_parent_mem cs h p c hc⟩

/-- C8 (witness): the merge theorem applied on the concrete heap, with the
children sequence `[1, 2]`. -/
theorem merge_children_order_and_backrefs_witness :
    ((merge_children hComp 0 [1, 2]) 0)._children = [1, 2]
    ∧ ((merge_children hComp 0 [1, 2]) 1)._parent = some 0
    ∧ ((merge_children hComp 0 [1, 2]) 2)._parent = some 0 := by
  have h := merge_children_order_and_backrefs hComp 0 [1, 2] (by decide)
  exact ⟨h.2.1.trans (by decide), h.2.2 1 (by decide), h.2.2 2 (by decide)⟩

/-- C9: the string-constant constructor, whose two character removals are
guarded in the embedding, succeeds exactly when the raw token has length
at least 2; for shorter inputs construction is not well-defined. -/
theorem mkStringNode_defined_iff (raw : List Nat) :
    (mkStringNode raw).isSome ↔ 2 ≤ raw.length := by
  match raw with
  | [] => simp [mkStringNode, eraseFront]
  | [a] => simp [mkStringNode, eraseFront, pop_back]
  | a :: b :: t =>
      simp [mkStringNode, eraseFront, pop_back]

/-- C10: `cast_node` returns the same node pointer exactly when the node's
dynamic class derives from the target class, and is an assertion failure
otherwise; consequently a `RoutineCallNode` can be constructed exactly when
its callee is an `IdentifierNode` and its argument list is an `ArgListNode`
(neither class has subclasses). -/
theorem cast_node_same_and_routine_ctor (t k : CppClass) (id : Nat)
    (i a : CppClass) (j j2 : Nat) :
    (cast_node t (k, id) = some (k, id) ↔ derivesFrom k t = true)
    ∧ (cast_node t (k, id) = none ↔ derivesFrom k t = false)
    ∧ ((mkRoutineCallNode (i, j) (a, j2)).isSome
        ↔ (i = CppClass.IdentifierNode ∧ a = CppClass.ArgListNode)) := by
  refine ⟨?_, ?_, ?_⟩
  · cases hd : derivesFrom k t <;> simp [cast_node, is_a_ptr_of, hd]
  · cases hd : derivesFrom k t <;> simp [cast_node, is_a_ptr_of, hd]
  · unfold mkRoutineCallNode cast_node is_a_ptr_of
    rw [derivesFrom_IdentifierNode_eq, derivesFrom_ArgListNode_eq]
    by_cases hi : i = CppClass.IdentifierNode <;>
      by_cases ha : a = CppClass.ArgListNode <;>
        simp [hi, ha]

end exp
